import Mathlib

/-!
Shallow embedding of the live-stream archival core of `live-like`:
the Chronicler (`src/streamer-app/src/chronicler.rs`), the Chat Verifier
(`src/web-app/src/components/chat/display.rs`), the pubsub frame loop
(`src/web-app/src/utils/ipfs.rs`) and the blog-post update
(`src/linked-data/src/blog.rs`).

CIDs are opaque identifiers; we model them as `Nat`.  The CAS client
(`IpfsClient.dag_put`) is modelled as an oracle `Nat → Option Nat`
mapping the index of a put attempt (in call order) to `some cid` on
success and `none` on failure; each state carries a `putCount` counter
of put attempts made so far.
-/

set_option maxRecDepth 10000

namespace LiveLike

/-- Opaque content identifier (`cid::Cid`). -/
abbrev Cid := Nat

/-- `IPLDLink { link: Cid }` from the dag-node schemas. -/
structure IPLDLink where
  link : Cid
deriving DecidableEq, Inhabited

/-- `SecondNode { link_to_video: IPLDLink, links_to_chat: Vec<IPLDLink> }`. -/
structure SecondNode where
  link_to_video : IPLDLink
  links_to_chat : List IPLDLink
deriving DecidableEq

/-- The `data` of a `ChatMessage` as used by the Chronicler: only its
`timestamp` field (an `IPLDLink`) is read (`msg.data.timestamp`). -/
structure ChatData where
  timestamp : IPLDLink
deriving DecidableEq

/-- `ChatMessage` as consumed by `archive_chat_message`. -/
structure ChatMessage where
  data : ChatData
deriving DecidableEq

/-- `Config` fields read by the Chronicler (`config.video_segment_duration`,
`config.pin_stream`). -/
structure Config where
  video_segment_duration : Nat
  pin_stream : Bool

/-- The CAS put oracle: result of the n-th `dag_put` call (counting from 0).
`none` models a failed put. -/
abbrev CasOracle := Nat → Option Cid

/-- The Chronicler's mutable state (`struct Chronicler`), plus
observation logs of everything successfully put to the CAS per tier
and the running count of put attempts. -/
structure Chronicler where
  putCount : Nat
  /-- `video_chat_buffer : VecDeque<SecondNode>`; head of list = front. -/
  video_chat_buffer : List SecondNode
  /-- `VecDeque::with_capacity(120 / config.video_segment_duration)`. -/
  bufferCap : Nat
  /-- `minute_node.links_to_seconds`. -/
  minute_node : List IPLDLink
  /-- current `Vec` capacity of `minute_node.links_to_seconds`. -/
  minuteCap : Nat
  /-- `hour_node.links_to_minutes`. -/
  hour_node : List IPLDLink
  hourCap : Nat
  /-- `day_node.links_to_hours`. -/
  day_node : List IPLDLink
  dayCap : Nat
  /-- log: SecondNodes successfully dag_put (in order). -/
  secondWrites : List SecondNode
  /-- log: MinuteNodes (their `links_to_seconds`) successfully dag_put. -/
  minuteWrites : List (List IPLDLink)
  /-- log: HourNodes (their `links_to_minutes`) successfully dag_put. -/
  hourWrites : List (List IPLDLink)
  /-- log: DayNodes (their `links_to_hours`) successfully dag_put. -/
  dayWrites : List (List IPLDLink)
  /-- log: StreamNode roots successfully dag_put. -/
  streamWrites : List Cid
deriving DecidableEq

/-- `Chronicler::new`: empty buffers, capacities 120/segment_duration,
60, 60, 24. -/
def Chronicler.init (cfg : Config) : Chronicler :=
  { putCount := 0
    video_chat_buffer := []
    bufferCap := 120 / cfg.video_segment_duration
    minute_node := []
    minuteCap := 60
    hour_node := []
    hourCap := 60
    day_node := []
    dayCap := 24
    secondWrites := []
    minuteWrites := []
    hourWrites := []
    dayWrites := []
    streamWrites := [] }

/-- One `dag_put` attempt: consult the oracle at the current attempt
index and bump the counter. -/
def dagPut (cas : CasOracle) (c : Chronicler) : Option Cid × Chronicler :=
  (cas c.putCount, { c with putCount := c.putCount + 1 })

/-- `Vec::push` capacity bookkeeping: Rust's `RawVec` grows an exactly
full vector to twice its capacity before pushing one element. -/
def vecGrow (len cap : Nat) : Nat :=
  if len < cap then cap else max (2 * cap) 4

/-- Push a link onto `minute_node.links_to_seconds`, tracking capacity. -/
def Chronicler.pushMinute (c : Chronicler) (l : IPLDLink) : Chronicler :=
  { c with minuteCap := vecGrow c.minute_node.length c.minuteCap
           minute_node := c.minute_node ++ [l] }

/-- Push a link onto `hour_node.links_to_minutes`, tracking capacity. -/
def Chronicler.pushHour (c : Chronicler) (l : IPLDLink) : Chronicler :=
  { c with hourCap := vecGrow c.hour_node.length c.hourCap
           hour_node := c.hour_node ++ [l] }

/-- Push a link onto `day_node.links_to_hours`, tracking capacity. -/
def Chronicler.pushDay (c : Chronicler) (l : IPLDLink) : Chronicler :=
  { c with dayCap := vecGrow c.day_node.length c.dayCap
           day_node := c.day_node ++ [l] }

/-- Push `link` onto the minute node `n` times (the
`for _ in 0..video_segment_duration` loop of `collect_second`). -/
def Chronicler.pushMinuteN (c : Chronicler) (l : IPLDLink) : Nat → Chronicler
  | 0 => c
  | n + 1 => (c.pushMinute l).pushMinuteN l n

/-- `collect_second`: pop the front SecondNode, dag_put it; on failure
return (the popped node is lost); on success push its link onto the
minute node `video_segment_duration` times. -/
def collect_second (cas : CasOracle) (cfg : Config) (c : Chronicler) : Chronicler :=
  match c.video_chat_buffer with
  | [] => c
  | sn :: rest =>
    let c1 := { c with video_chat_buffer := rest }
    let pr := dagPut cas c1
    match pr.1 with
    | none => pr.2
    | some cid =>
      let c2 := { pr.2 with secondWrites := pr.2.secondWrites ++ [sn] }
      c2.pushMinuteN ⟨cid⟩ cfg.video_segment_duration

/-- `collect_minute`: dag_put the minute node; on failure return (buffer
untouched); on success clear it and push the link onto the hour node. -/
def collect_minute (cas : CasOracle) (c : Chronicler) : Chronicler :=
  let pr := dagPut cas c
  match pr.1 with
  | none => pr.2
  | some cid =>
    let c1 := { pr.2 with minuteWrites := pr.2.minuteWrites ++ [pr.2.minute_node]
                          minute_node := [] }
    c1.pushHour ⟨cid⟩

/-- `collect_hour`: dag_put the hour node; on failure return; on success
clear it and push the link onto the day node. -/
def collect_hour (cas : CasOracle) (c : Chronicler) : Chronicler :=
  let pr := dagPut cas c
  match pr.1 with
  | none => pr.2
  | some cid =>
    let c1 := { pr.2 with hourWrites := pr.2.hourWrites ++ [pr.2.hour_node]
                          hour_node := [] }
    c1.pushDay ⟨cid⟩

/-- `archive_video_segment`: enqueue a fresh SecondNode; when the deque
reaches its capacity flush the head, then cascade the minute and hour
flushes when those buffers reach their capacities. -/
def archive_video_segment (cas : CasOracle) (cfg : Config) (c : Chronicler)
    (cid : Cid) : Chronicler :=
  let c := { c with video_chat_buffer :=
      c.video_chat_buffer ++ [{ link_to_video := ⟨cid⟩, links_to_chat := [] }] }
  if c.video_chat_buffer.length < c.bufferCap then c
  else
    let c := collect_second cas cfg c
    if c.minute_node.length < c.minuteCap then c
    else
      let c := collect_minute cas c
      if c.hour_node.length < c.hourCap then c
      else collect_hour cas c

/-- Split a buffer at the first SecondNode whose `link_to_video` equals
`ts` (the loop condition of `archive_chat_message`). -/
def chatSplit (ts : IPLDLink) :
    List SecondNode → Option (List SecondNode × SecondNode × List SecondNode)
  | [] => none
  | n :: rest =>
    if n.link_to_video = ts then some ([], n, rest)
    else
      match chatSplit ts rest with
      | none => none
      | some (pre, m, post) => some (n :: pre, m, post)

/-- `archive_chat_message`: scan the buffer front-to-back for the first
SecondNode whose `link_to_video` equals `msg.data.timestamp`; on a match
dag_put the message (on failure return), push the returned link onto
that node's chat list and break; with no match, do nothing. -/
def archive_chat_message (cas : CasOracle) (c : Chronicler)
    (msg : ChatMessage) : Chronicler :=
  match chatSplit msg.data.timestamp c.video_chat_buffer with
  | none => c
  | some (pre, n, post) =>
    let pr := dagPut cas c
    match pr.1 with
    | none => pr.2
    | some cid =>
      { pr.2 with video_chat_buffer :=
          pre ++ ({ n with links_to_chat := n.links_to_chat ++ [⟨cid⟩] } :: post) }

/-- The `while !self.video_chat_buffer.is_empty()` drain of `finalize`,
with fuel (each `collect_second` pops exactly one node, so
`buffer.length` steps suffice). -/
def drainSeconds (cas : CasOracle) (cfg : Config) : Nat → Chronicler → Chronicler
  | 0, c => c
  | n + 1, c =>
    if c.video_chat_buffer.isEmpty then c
    else drainSeconds cas cfg n (collect_second cas cfg c)

/-- `finalize`: drain the second buffer, roll up a non-empty minute and
hour buffer once each, then dag_put the day node and the stream root. -/
def finalize (cas : CasOracle) (cfg : Config) (c : Chronicler) : Chronicler :=
  let c := drainSeconds cas cfg c.video_chat_buffer.length c
  let c := if c.minute_node.isEmpty then c else collect_minute cas c
  let c := if c.hour_node.isEmpty then c else collect_hour cas c
  let pr := dagPut cas c
  match pr.1 with
  | none => pr.2
  | some _dayCid =>
    let c1 := { pr.2 with dayWrites := pr.2.dayWrites ++ [pr.2.day_node] }
    let pr2 := dagPut cas c1
    match pr2.1 with
    | none => pr2.2
    | some streamCid =>
      { pr2.2 with streamWrites := pr2.2.streamWrites ++ [streamCid] }

/-- The Chronicler's inbound event type (`enum Archive`). -/
inductive Archive where
  | chat (msg : ChatMessage)
  | video (cid : Cid)
  | fin
deriving DecidableEq

/-- One iteration of the `collect` event loop. -/
def chroniclerStep (cas : CasOracle) (cfg : Config) (c : Chronicler) :
    Archive → Chronicler
  | .chat msg => archive_chat_message cas c msg
  | .video cid => archive_video_segment cas cfg c cid
  | .fin => finalize cas cfg c

/-- Run the Chronicler from its initial state over a queue of events. -/
def chroniclerRun (cas : CasOracle) (cfg : Config) (evs : List Archive) : Chronicler :=
  evs.foldl (chroniclerStep cas cfg) (Chronicler.init cfg)

/-- A CAS oracle on which every put succeeds, returning distinct CIDs. -/
def casOk : CasOracle := fun n => some n

end LiveLike

namespace LiveLike

/-! ## Chat Verifier (`src/web-app/src/components/chat/display.rs`) -/

/-- `Content { peer_id: String, name: String }` — the display metadata of
a `SignedMessage` read by the Verifier (`linked_data::chat::Content`). -/
structure Content where
  peer_id : String
  name : String
deriving DecidableEq, Inhabited

/-- Modelled from the spec: `SignedMessage { address: 20-byte account,
data: Content }` "plus material sufficient for a pure verification
function `verify(msg) → bool`" (`linked_data::chat`, not under `src/`).
The signature material is abstracted to the boolean outcome `sig_ok` of
checking that `address` signed `data`. -/
structure SignedMessage where
  address : List Nat
  data : Content
  sig_ok : Bool
deriving DecidableEq, Inhabited

/-- Modelled from the spec: the pure verification outcome of a
`SignedMessage`. -/
def SignedMessage.verify (m : SignedMessage) : Bool := m.sig_ok

/-- `UnsignedMessage { message: String, origin: IPLDLink }`
(`linked_data::chat`; field use follows `display.rs`: `msg.message`,
`msg.origin.link`). -/
structure UnsignedMessage where
  message : String
  origin : IPLDLink
deriving DecidableEq, Inhabited

/-- A display record (`MessageData::new(next_id, icon, name, message)`);
the blocky icon is a pure function of the 20-byte address, so the record
carries the address in its place. -/
structure MessageData where
  id : Nat
  address : List Nat
  name : String
  message : String
deriving DecidableEq, Inhabited

/-- The Verifier component state (`struct Display`), plus an append-only
observation log `emitted` of every display record ever pushed to the
display queue (the queue itself, `chat_messages`, evicts old entries). -/
structure DisplayState where
  /-- `trusted_identities : HashMap<Cid, ([u8; 20], Content)>`, as an
  association list (first match wins; insert overwrites). -/
  trusted_identities : List (Cid × (List Nat × Content))
  /-- `msg_buffer : Vec<(String, UnsignedMessage)>` — the parking lot. -/
  msg_buffer : List (String × UnsignedMessage)
  next_id : Nat
  /-- `chat_messages : VecDeque<MessageData>` — the display queue. -/
  chat_messages : List MessageData
  /-- observation log: CIDs for which a CAS `dag_get` was scheduled. -/
  fetches : List Cid
  /-- observation log: every display record ever pushed. -/
  emitted : List MessageData
deriving DecidableEq, Inhabited

/-- The Verifier's initial state (`Display::create`). -/
def DisplayState.init : DisplayState :=
  { trusted_identities := []
    msg_buffer := []
    next_id := 0
    chat_messages := []
    fetches := []
    emitted := [] }

/-- `HashMap::get` on the association-list model. -/
def lookupId (m : List (Cid × (List Nat × Content))) (c : Cid) :
    Option (List Nat × Content) :=
  match m with
  | [] => none
  | (k, v) :: rest => if k = c then some v else lookupId rest c

/-- `HashMap::insert` on the association-list model (overwrite). -/
def insertId (m : List (Cid × (List Nat × Content))) (c : Cid)
    (v : List Nat × Content) : List (Cid × (List Nat × Content)) :=
  match m with
  | [] => [(c, v)]
  | (k, w) :: rest => if k = c then (c, v) :: rest else (k, w) :: insertId rest c v

/-- Push a display record: `chat_messages.push_back`, evict the front
when the queue holds 10 or more, bump `next_id`; log the record. -/
def pushChat (s : DisplayState) (addr : List Nat) (name message : String) :
    DisplayState :=
  let md : MessageData := ⟨s.next_id, addr, name, message⟩
  let q := s.chat_messages ++ [md]
  let q := if 10 ≤ q.length then q.tail else q
  { s with chat_messages := q
           next_id := s.next_id + 1
           emitted := s.emitted ++ [md] }

/-- `is_allowed`: the source's white/black-list check is a stub that
permits everything. -/
def is_allowed (_sender : String) (_cid : Cid) : Bool := true

/-- `on_pubsub_update` after a successful frame decode: consult the
identity cache; on a hit with matching peer id emit; on a miss park the
message and schedule a `dag_get` of its origin; on a hit with a
mismatched peer id fall through (no park, no fetch, no emission). -/
def on_pubsub_update (s : DisplayState) (sender : String)
    (msg : UnsignedMessage) : DisplayState :=
  if ¬ is_allowed sender msg.origin.link then s
  else
    match lookupId s.trusted_identities msg.origin.link with
    | some (addrs, content) =>
      if content.peer_id = sender then pushChat s addrs content.name msg.message
      else s
    | none =>
      { s with msg_buffer := s.msg_buffer ++ [(sender, msg)]
               fetches := s.fetches ++ [msg.origin.link] }

/-- Result of one Verifier callback: `hung` marks the state at the point
where the `on_signed_msg` while-loop stopped making progress (its
`continue` branch leaves the index `i` unchanged, so the loop never
terminates). -/
inductive StepRes where
  | ok (s : DisplayState)
  | hung (s : DisplayState)
deriving DecidableEq

/-- The state carried by a `StepRes`. -/
def StepRes.state : StepRes → DisplayState
  | .ok s => s
  | .hung s => s

/-- `Vec::swap_remove i`: replace slot `i` with the last element and pop. -/
def swapRemove (l : List (String × UnsignedMessage)) (i : Nat) :
    List (String × UnsignedMessage) :=
  match l.getLast? with
  | none => l
  | some a => l.dropLast.set i a

/-- The `on_signed_msg` while-loop, literally: `i` starts at
`msg_buffer.len()`; each iteration reads `msg_buffer[i-1]`; when its
origin differs from `cid` the loop `continue`s WITHOUT decrementing `i`
(so it spins forever); otherwise it emits when the parked sender equals
the signed peer id and the message verified, then `swap_remove(i-1)` and
`i -= 1`.  Fuel-indexed: `none` = the loop has not terminated within
`fuel` iterations. -/
def signedLoop (cid : Cid) (sm : SignedMessage) (verified : Bool) :
    Nat → List (String × UnsignedMessage) → Nat → DisplayState →
    Option (List (String × UnsignedMessage) × DisplayState)
  | 0, _, _, _ => none
  | fuel + 1, buf, i, s =>
    if i = 0 then some (buf, s)
    else
      let e := buf.getD (i - 1) ("", default)
      if e.2.origin.link ≠ cid then signedLoop cid sm verified fuel buf i s
      else
        let s := if e.1 = sm.data.peer_id ∧ verified then
            pushChat s sm.address sm.data.name e.2.message
          else s
        signedLoop cid sm verified fuel (swapRemove buf (i - 1)) (i - 1) s

/-- Structured form of the `on_signed_msg` loop.  Because `i` always
equals the current buffer length, each terminating iteration examines
and pops the LAST buffer entry; the argument here is the reversed
buffer.  A head entry with a different origin makes the source loop spin
forever (`hung`, buffer left as it stood). -/
def drainGo (cid : Cid) (sm : SignedMessage) (verified : Bool) :
    List (String × UnsignedMessage) → DisplayState → StepRes
  | [], s => .ok { s with msg_buffer := [] }
  | e :: rest, s =>
    if e.2.origin.link = cid then
      let s := if e.1 = sm.data.peer_id ∧ verified then
          pushChat s sm.address sm.data.name e.2.message
        else s
      drainGo cid sm verified rest s
    else .hung { s with msg_buffer := (e :: rest).reverse }

/-- `on_signed_msg`: an `Err` response only logs; otherwise compute
`verified = sign_msg.verify()`, run the drain loop over the parking lot,
and if `verified` insert `(address, data)` into the identity cache. -/
def on_signed_msg (s : DisplayState) (cid : Cid)
    (response : Option SignedMessage) : StepRes :=
  match response with
  | none => .ok s
  | some sm =>
    let verified := sm.verify
    match drainGo cid sm verified s.msg_buffer.reverse s with
    | .hung s1 => .hung s1
    | .ok s1 =>
      .ok (if verified then
          { s1 with trusted_identities := insertId s1.trusted_identities cid (sm.address, sm.data) }
        else s1)

/-- The Verifier's inbound events: a decoded pubsub frame, a failed
frame (`Err` in the callback), a `dag_get` completion, a failed
`dag_get`. -/
inductive VEvent where
  | pubsub (sender : String) (msg : UnsignedMessage)
  | pubsubErr
  | identity (cid : Cid) (sm : SignedMessage)
  | identityErr (cid : Cid)
deriving DecidableEq

/-- One `Component::update` dispatch. -/
def verifierStep (s : DisplayState) : VEvent → StepRes
  | .pubsub sender msg => .ok (on_pubsub_update s sender msg)
  | .pubsubErr => .ok s
  | .identity cid sm => on_signed_msg s cid (some sm)
  | .identityErr _ => .ok s

/-- Run the Verifier over an event list; once a callback hangs no
further event is ever processed. -/
def verifierRun (s : DisplayState) : List VEvent → StepRes
  | [] => .ok s
  | e :: rest =>
    match verifierStep s e with
    | .ok s1 => verifierRun s1 rest
    | .hung s1 => .hung s1

end LiveLike

namespace LiveLike

/-! ## Pubsub frame loop (`src/web-app/src/utils/ipfs.rs`, `pubsub_sub`) -/

/-- One line read from the subscription byte stream: a read error or a
text line. -/
inductive LineRes where
  | readErr
  | line (l : String)
deriving DecidableEq

/-- One value emitted on the subscription callback: an error, or a
decoded `(sender, data)` pair. -/
inductive CbEvent where
  | err
  | ok (sender : String) (data : List Nat)
deriving DecidableEq

/-- The per-line decode chain of `pubsub_sub`: JSON-parse the line into
`{ from, data }`, base64-decode `from`, re-encode it as base58btc,
base64-decode `data`.  The first failing step aborts the chain.  The
parse/decode/encode functions are parameters (they are external
library calls). -/
def decodeFrame (parse : String → Option (String × String))
    (decB64 : String → Option (List Nat)) (encB58 : List Nat → String)
    (l : String) : Option (String × List Nat) :=
  match parse l with
  | none => none
  | some (sender, data) =>
    match decB64 sender with
    | none => none
    | some sb =>
      match decB64 data with
      | none => none
      | some db => some (encB58 sb, db)

/-- The `while let Some(result) = line_stream.next()` loop of
`pubsub_sub`: check the drop signal, then on a read error or any decode
failure emit one error on the callback and RETURN (ending the loop);
on success emit the decoded pair and continue.  `n` counts iterations
(the drop signal is an external atomic read per iteration). -/
def pubsubLoop (parse : String → Option (String × String))
    (decB64 : String → Option (List Nat)) (encB58 : List Nat → String)
    (dropSig : Nat → Bool) : Nat → List LineRes → List CbEvent
  | _, [] => []
  | n, r :: rest =>
    if dropSig n then []
    else
      match r with
      | .readErr => [.err]
      | .line l =>
        match decodeFrame parse decB64 encB58 l with
        | none => [.err]
        | some (sender, db) => .ok sender db :: pubsubLoop parse decB64 encB58 dropSig (n + 1) rest

/-! ## Blog posts (`src/linked-data/src/blog.rs`) -/

/-- `FullPost { timestamp: u64, content: IPLDLink, image: IPLDLink,
title: String }`. -/
structure FullPost where
  timestamp : Nat
  content : IPLDLink
  image : IPLDLink
  title : String
deriving DecidableEq

/-- `FullPost::update(title, image, video)`: overwrite each field whose
argument is `Some`, then UNCONDITIONALLY set `timestamp` to the current
time (`now`, passed explicitly since `SystemTime::now()` is an ambient
input). -/
def FullPost.update (p : FullPost) (title : Option String)
    (image : Option Cid) (video : Option Cid) (now : Nat) : FullPost :=
  let p := match title with
    | some t => { p with title := t }
    | none => p
  let p := match image with
    | some img => { p with image := ⟨img⟩ }
    | none => p
  let p := match video with
    | some vid => { p with content := ⟨vid⟩ }
    | none => p
  { p with timestamp := now }

end LiveLike

namespace LiveLike

/-! ## Concrete fixtures -/

/-- A CAS oracle on which every put fails. -/
def casFail : CasOracle := fun _ => none

/-- Scenario S1's configuration: `video_segment_duration = 4`. -/
def cfg4 : Config := { video_segment_duration := 4, pin_stream := false }

/-- Scenario S1's event queue: 30 `Video` events then `Finalize`. -/
def s1Events : List Archive := (List.range 30).map Archive.video ++ [Archive.fin]

/-- A Chronicler state holding one buffered SecondNode (video CID 5)
with one attached chat link, about to flush. -/
def c7state : Chronicler :=
  { putCount := 0
    video_chat_buffer := [{ link_to_video := ⟨5⟩, links_to_chat := [⟨6⟩] }]
    bufferCap := 1
    minute_node := []
    minuteCap := 60
    hour_node := []
    hourCap := 60
    day_node := []
    dayCap := 24
    secondWrites := []
    minuteWrites := []
    hourWrites := []
    dayWrites := []
    streamWrites := [] }

end LiveLike

namespace LiveLike

/-! ## C10 -/

/-- Claim C10: for every `FullPost`, `update(None, None, None)` leaves
`title`, `content` and `image` unchanged while still setting `timestamp`
to the current time. -/
theorem update_none_touches_only_timestamp (p : FullPost) (now : Nat) :
    (p.update none none none now).title = p.title ∧
    (p.update none none none now).content = p.content ∧
    (p.update none none none now).image = p.image ∧
    (p.update none none none now).timestamp = now :=
  ⟨rfl, rfl, rfl, rfl⟩

/-! ## C1 -/

/-- Claim C1 (failing-input evaluation): with `segment_duration = 4`,
feeding 30 `Video` events then `Finalize` on an always-succeeding CAS
produces 30 SecondNode writes but exactly ONE MinuteNode write holding
120 second-links — not the two 60-slot writes the claim requires:
`finalize`'s drain loop calls only `collect_second`, never checking the
minute buffer against its fanout, so the minute buffer blows past 60. -/
theorem minute_write_of_120_slots_on_finalize :
    (chroniclerRun casOk cfg4 s1Events).minuteWrites.map List.length = [120] ∧
    (chroniclerRun casOk cfg4 s1Events).secondWrites.length = 30 ∧
    (chroniclerRun casOk cfg4 s1Events).hourWrites.map List.length = [1] := by
  refine ⟨by decide, by decide, by decide⟩

end LiveLike

namespace LiveLike

/-! ## C6 -/

/-- Identity cached under CID 3 whose peer id is "Q". -/
def ct6 : Content := { peer_id := "Q", name := "alice" }

/-- A Verifier state whose cache maps CID 3 to address `[1,2]` and `ct6`. -/
def s6 : DisplayState :=
  { DisplayState.init with trusted_identities := [(3, ([1, 2], ct6))] }

/-- An incoming message whose origin is the cached CID 3. -/
def m6 : UnsignedMessage := { message := "hello", origin := ⟨3⟩ }

/-- Claim C6 is false: on a cache hit whose cached `peer_id` ("Q")
differs from the transport sender ("P"), `on_pubsub_update` falls
through the inner `if` and returns with NO parking-lot append and NO
scheduled CAS-get (and no emission) — the state is untouched — whereas
the claim requires the pair to be parked and a fetch scheduled. -/
theorem cache_hit_peer_mismatch_drops_message :
    on_pubsub_update s6 "P" m6 = s6 ∧
    s6.msg_buffer = [] ∧ s6.fetches = [] ∧ s6.emitted = [] ∧
    ct6.peer_id ≠ "P" := by
  refine ⟨by decide, rfl, rfl, rfl, by decide⟩

/-- Claim C6 as amended: for every allowed incoming `(sender, msg)`,
(1) a cache hit whose `peer_id` equals `sender` emits a display record
built from the cached address and name; (2) a cache miss appends
`(sender, msg)` to the parking lot and schedules a CAS-get of
`msg.origin`, with no emission; (3) a cache hit whose `peer_id` differs
from `sender` leaves the state unchanged — no emission, no parking, no
fetch. -/
theorem lookup_or_park_trichotomy (s : DisplayState) (sender : String)
    (msg : UnsignedMessage) :
    (∀ a ct, lookupId s.trusted_identities msg.origin.link = some (a, ct) →
      ct.peer_id = sender →
      on_pubsub_update s sender msg = pushChat s a ct.name msg.message) ∧
    (lookupId s.trusted_identities msg.origin.link = none →
      on_pubsub_update s sender msg =
        { s with msg_buffer := s.msg_buffer ++ [(sender, msg)]
                 fetches := s.fetches ++ [msg.origin.link] }) ∧
    (∀ a ct, lookupId s.trusted_identities msg.origin.link = some (a, ct) →
      ct.peer_id ≠ sender → on_pubsub_update s sender msg = s) := by
  refine ⟨?_, ?_, ?_⟩
  · intro a ct hl hp
    simp [on_pubsub_update, is_allowed, hl, hp]
  · intro hl
    simp [on_pubsub_update, is_allowed, hl]
  · intro a ct hl hp
    simp [on_pubsub_update, is_allowed, hl, hp]

/-- Witness for `lookup_or_park_trichotomy` at concrete inputs: a cache
miss on the empty initial cache parks the message and schedules the
fetch. -/
theorem lookup_or_park_trichotomy_witness :
    lookupId DisplayState.init.trusted_identities m6.origin.link = none ∧
    on_pubsub_update DisplayState.init "P" m6 =
      { DisplayState.init with msg_buffer := [("P", m6)], fetches := [3] } :=
  ⟨rfl, (lookup_or_park_trichotomy DisplayState.init "P" m6).2.1 rfl⟩

/-! ## C8 -/

/-- Concrete JSON parse stub: only the line "good" parses. -/
def parse0 : String → Option (String × String) :=
  fun l => if l = "good" then some ("F", "D") else none

/-- Concrete base64 decode stub. -/
def dec0 : String → Option (List Nat) :=
  fun t => if t = "F" then some [1] else if t = "D" then some [2] else none

/-- Concrete base58 encode stub. -/
def enc0 : List Nat → String := fun _ => "G"

/-- The drop signal never set. -/
def noDrop : Nat → Bool := fun _ => false

/-- Claim C8 is false: a frame that fails to decode ("bad") makes
`pubsub_sub` emit one error and RETURN, so the following well-formed
frame ("good") — which decodes on its own, second conjunct — is never
processed: a decode failure IS a terminal condition of the frame loop. -/
theorem decode_failure_ends_frame_loop :
    pubsubLoop parse0 dec0 enc0 noDrop 0 [.line "bad", .line "good"] = [.err] ∧
    pubsubLoop parse0 dec0 enc0 noDrop 0 [.line "good"] = [.ok "G" [2]] := by
  refine ⟨by decide, by decide⟩

/-- Claim C8 as amended: when the drop signal is clear, a read error or
a frame whose decode chain fails causes exactly one error emission on
the callback and terminates the loop; the remaining frames are never
processed. -/
theorem decode_failure_terminal (parse : String → Option (String × String))
    (decB64 : String → Option (List Nat)) (encB58 : List Nat → String)
    (dropSig : Nat → Bool) (n : Nat) (l : String) (rest : List LineRes)
    (hd : dropSig n = false) :
    (decodeFrame parse decB64 encB58 l = none →
      pubsubLoop parse decB64 encB58 dropSig n (.line l :: rest) = [.err]) ∧
    pubsubLoop parse decB64 encB58 dropSig n (.readErr :: rest) = [.err] := by
  constructor
  · intro hf
    simp [pubsubLoop, hd, hf]
  · simp [pubsubLoop, hd]

/-- Witness for `decode_failure_terminal`: the concrete failing frame
"bad" followed by any tail yields exactly one error. -/
theorem decode_failure_terminal_witness :
    noDrop 0 = false ∧
    pubsubLoop parse0 dec0 enc0 noDrop 0 [.line "bad", .line "good", .readErr] = [.err] :=
  ⟨rfl, (decode_failure_terminal parse0 dec0 enc0 noDrop 0 "bad"
      [.line "good", .readErr] rfl).1 (by decide)⟩

end LiveLike

namespace LiveLike

/-! ## C7 -/

/-- Claim C7 is false for the second tier: `collect_second` pops the
head SecondNode BEFORE the CAS put, so when the put fails the popped
node (video CID 5 and its chat link) is gone from the buffer — not
"unchanged" — though, as claimed, nothing reaches the minute buffer. -/
theorem failed_second_flush_loses_head :
    (collect_second casFail cfg4 c7state).video_chat_buffer = [] ∧
    c7state.video_chat_buffer =
      [{ link_to_video := ⟨5⟩, links_to_chat := [⟨6⟩] }] ∧
    (collect_second casFail cfg4 c7state).minute_node = [] := by
  refine ⟨by decide, rfl, by decide⟩

/-- Claim C7 as amended: on a failed CAS put, a minute- or hour-tier
flush leaves the whole state unchanged except the attempt counter (in
particular the flushed buffer keeps its contents and nothing is appended
to the parent tier); a failed second-tier flush appends nothing to the
minute buffer either, but the head SecondNode has already been popped
from the second buffer and is lost. -/
theorem failed_flush_atomicity (cas : CasOracle) (cfg : Config)
    (c : Chronicler) (h : cas c.putCount = none) :
    collect_minute cas c = { c with putCount := c.putCount + 1 } ∧
    collect_hour cas c = { c with putCount := c.putCount + 1 } ∧
    (∀ sn rest, c.video_chat_buffer = sn :: rest →
      collect_second cas cfg c =
        { c with putCount := c.putCount + 1, video_chat_buffer := rest }) := by
  refine ⟨?_, ?_, ?_⟩
  · simp [collect_minute, dagPut, h]
  · simp [collect_hour, dagPut, h]
  · intro sn rest hb
    simp [collect_second, hb, dagPut, h]

/-- Witness for `failed_flush_atomicity` at the concrete state
`c7state` and the always-failing oracle. -/
theorem failed_flush_atomicity_witness :
    casFail c7state.putCount = none ∧
    collect_second casFail cfg4 c7state =
      { c7state with putCount := 1, video_chat_buffer := [] } :=
  ⟨rfl, (failed_flush_atomicity casFail cfg4 c7state rfl).2.2
    { link_to_video := ⟨5⟩, links_to_chat := [⟨6⟩] } [] rfl⟩

end LiveLike

namespace LiveLike

/-! ## C9 -/

/-- `chatSplit` finds nothing when no buffered node matches. -/
theorem chatSplit_eq_none (ts : IPLDLink) (buf : List SecondNode)
    (h : ∀ n ∈ buf, n.link_to_video ≠ ts) : chatSplit ts buf = none := by
  induction buf with
  | nil => rfl
  | cons n rest ih =>
    have hn : n.link_to_video ≠ ts := h n (by simp)
    have hrest : ∀ m ∈ rest, m.link_to_video ≠ ts := fun m hm => h m (by simp [hm])
    simp [chatSplit, hn, ih hrest]

/-- `chatSplit` splits at the first matching node. -/
theorem chatSplit_eq_some (ts : IPLDLink) (pre : List SecondNode)
    (n : SecondNode) (post : List SecondNode)
    (hpre : ∀ m ∈ pre, m.link_to_video ≠ ts) (hn : n.link_to_video = ts) :
    chatSplit ts (pre ++ n :: post) = some (pre, n, post) := by
  induction pre with
  | nil => simp [chatSplit, hn]
  | cons m rest ih =>
    have hm : m.link_to_video ≠ ts := hpre m (by simp)
    have hrest : ∀ x ∈ rest, x.link_to_video ≠ ts := fun x hx => hpre x (by simp [hx])
    simp [chatSplit, hm, ih hrest]

/-- Claim C9: a `Chat` event whose timestamp matches no buffered
SecondNode leaves the Chronicler untouched (no CAS write, every buffer
unchanged); when a match exists and the put succeeds, exactly one CAS
put is performed and its link is appended to the FIRST matching
SecondNode only — every other buffer and node is unchanged. -/
theorem chat_join_first_match (cas : CasOracle) (c : Chronicler)
    (msg : ChatMessage) :
    ((∀ n ∈ c.video_chat_buffer, n.link_to_video ≠ msg.data.timestamp) →
      archive_chat_message cas c msg = c) ∧
    (∀ pre n post cid, c.video_chat_buffer = pre ++ n :: post →
      (∀ m ∈ pre, m.link_to_video ≠ msg.data.timestamp) →
      n.link_to_video = msg.data.timestamp →
      cas c.putCount = some cid →
      archive_chat_message cas c msg =
        { c with putCount := c.putCount + 1
                 video_chat_buffer :=
                   pre ++ ({ n with links_to_chat := n.links_to_chat ++ [⟨cid⟩] } :: post) }) := by
  constructor
  · intro h
    simp [archive_chat_message, chatSplit_eq_none _ _ h]
  · intro pre n post cid hb hpre hn hcas
    simp [archive_chat_message, hb, chatSplit_eq_some _ _ _ _ hpre hn, dagPut, hcas]

/-- A buffer whose second node (video CID 5) is the chat target. -/
def c9state : Chronicler :=
  { c7state with video_chat_buffer :=
      [{ link_to_video := ⟨8⟩, links_to_chat := [] },
       { link_to_video := ⟨5⟩, links_to_chat := [] }] }

/-- Witness for `chat_join_first_match`: both branches applied at
concrete inputs. -/
theorem chat_join_first_match_witness :
    archive_chat_message casOk c9state { data := { timestamp := ⟨5⟩ } } =
      { c9state with putCount := 1
                     video_chat_buffer :=
                       [{ link_to_video := ⟨8⟩, links_to_chat := [] },
                        { link_to_video := ⟨5⟩, links_to_chat := [⟨0⟩] }] } ∧
    archive_chat_message casOk c9state { data := { timestamp := ⟨77⟩ } } = c9state :=
  ⟨(chat_join_first_match casOk c9state _).2
      [{ link_to_video := ⟨8⟩, links_to_chat := [] }]
      { link_to_video := ⟨5⟩, links_to_chat := [] } [] 0
      rfl (by decide) rfl rfl,
    (chat_join_first_match casOk c9state _).1 (by decide)⟩

end LiveLike

namespace LiveLike

/-! ## C4 -/

/-- A verified identity record whose peer id is "P". -/
def sm4 : SignedMessage := { address := [1], data := { peer_id := "P", name := "bob" }, sig_ok := true }

/-- A parked message whose origin (CID 9) differs from the identity
that will arrive (CID 7). -/
def msg9 : UnsignedMessage := { message := "hi", origin := ⟨9⟩ }

/-- Parking lot holding the single foreign-origin entry. -/
def buf4 : List (String × UnsignedMessage) := [("P", msg9)]

/-- Verifier state with that parking lot. -/
def s4 : DisplayState := { DisplayState.init with msg_buffer := buf4 }

/-- Claim C4 is violated by the code: when an identity record for CID 7
arrives while an entry with origin CID 9 is parked, the `on_signed_msg`
while-loop reaches that entry, takes the `continue` branch WITHOUT
decrementing `i`, and re-examines the same entry forever — for every
fuel bound the literal loop has not terminated (first conjunct), the
component hangs, and the foreign entry is never removed nor kept
"cleanly": the whole Verifier is stuck (second conjunct). -/
theorem on_identity_diverges_on_foreign_origin :
    (∀ fuel, signedLoop 7 sm4 sm4.verify fuel buf4 buf4.length DisplayState.init = none) ∧
    verifierRun s4 [.identity 7 sm4] = .hung s4 := by
  constructor
  · intro fuel
    induction fuel with
    | zero => rfl
    | succ f ih => simpa [signedLoop, buf4, msg9] using ih
  · decide

end LiveLike

namespace LiveLike

/-! ## Verifier invariants shared by C2 and C3 -/

theorem pushChat_emitted (s : DisplayState) (a : List Nat) (n msg : String) :
    (pushChat s a n msg).emitted = s.emitted ++ [⟨s.next_id, a, n, msg⟩] := rfl

theorem pushChat_trusted (s : DisplayState) (a : List Nat) (n msg : String) :
    (pushChat s a n msg).trusted_identities = s.trusted_identities := rfl

theorem pushChat_buffer (s : DisplayState) (a : List Nat) (n msg : String) :
    (pushChat s a n msg).msg_buffer = s.msg_buffer := rfl

theorem pushChat_next_id (s : DisplayState) (a : List Nat) (n msg : String) :
    (pushChat s a n msg).next_id = s.next_id + 1 := rfl

/-- Every identity-cache entry is backed by a verified `identity` event
of the trace with matching address and display data. -/
def cacheDerived (evs : List VEvent) (s : DisplayState) : Prop :=
  ∀ c a ct, (c, (a, ct)) ∈ s.trusted_identities →
    ∃ sm, VEvent.identity c sm ∈ evs ∧ sm.verify = true ∧
      sm.address = a ∧ sm.data = ct

/-- Every display record ever emitted is backed by a verified
`identity` event of the trace with matching address and name. -/
def emitDerived (evs : List VEvent) (s : DisplayState) : Prop :=
  ∀ m ∈ s.emitted, ∃ c sm, VEvent.identity c sm ∈ evs ∧ sm.verify = true ∧
    sm.address = m.address ∧ sm.data.name = m.name

theorem lookupId_mem (m : List (Cid × (List Nat × Content))) (c : Cid)
    (v : List Nat × Content) (h : lookupId m c = some v) : (c, v) ∈ m := by
  induction m with
  | nil => simp [lookupId] at h
  | cons kv rest ih =>
    obtain ⟨k, w⟩ := kv
    by_cases hk : k = c
    · simp only [lookupId, if_pos hk] at h
      subst hk
      rw [Option.some.injEq] at h
      subst h
      exact List.mem_cons_self _ _
    · simp only [lookupId, if_neg hk] at h
      exact List.mem_cons_of_mem _ (ih h)

theorem mem_insertId (m : List (Cid × (List Nat × Content))) (c : Cid)
    (v : List Nat × Content) (x : Cid × (List Nat × Content))
    (h : x ∈ insertId m c v) : x ∈ m ∨ x = (c, v) := by
  induction m with
  | nil =>
    simp only [insertId] at h
    right
    simpa using h
  | cons kv rest ih =>
    obtain ⟨k, w⟩ := kv
    by_cases hk : k = c
    · simp only [insertId, if_pos hk] at h
      rcases List.mem_cons.mp h with h1 | h1
      · right; exact h1
      · left; exact List.mem_cons_of_mem _ h1
    · simp only [insertId, if_neg hk] at h
      rcases List.mem_cons.mp h with h1 | h1
      · left; simp [h1]
      · rcases ih h1 with h2 | h2
        · left; exact List.mem_cons_of_mem _ h2
        · right; exact h2
/-- Unfolding equation of `drainGo` when the examined (last) entry's
origin matches. -/
theorem drainGo_cons_match (cid : Cid) (sm : SignedMessage) (verified : Bool)
    (e : String × UnsignedMessage) (rest : List (String × UnsignedMessage))
    (s : DisplayState) (h : e.2.origin.link = cid) :
    drainGo cid sm verified (e :: rest) s =
      drainGo cid sm verified rest
        (if e.1 = sm.data.peer_id ∧ verified then
          pushChat s sm.address sm.data.name e.2.message
        else s) := by
  simp [drainGo, h]

/-- Unfolding equation of `drainGo` when the examined entry's origin
differs: the source loop `continue`s forever. -/
theorem drainGo_cons_miss (cid : Cid) (sm : SignedMessage) (verified : Bool)
    (e : String × UnsignedMessage) (rest : List (String × UnsignedMessage))
    (s : DisplayState) (h : e.2.origin.link ≠ cid) :
    drainGo cid sm verified (e :: rest) s =
      .hung { s with msg_buffer := (e :: rest).reverse } := by
  simp [drainGo, h]

theorem drainGo_trusted (cid : Cid) (sm : SignedMessage) (verified : Bool) :
    ∀ (l : List (String × UnsignedMessage)) (s : DisplayState),
      (drainGo cid sm verified l s).state.trusted_identities = s.trusted_identities := by
  intro l
  induction l with
  | nil => intro s; rfl
  | cons e rest ih =>
    intro s
    by_cases h : e.2.origin.link = cid
    · rw [drainGo_cons_match cid sm verified e rest s h, ih]
      split_ifs with hp
      · exact pushChat_trusted s sm.address sm.data.name e.2.message
      · rfl
    · rw [drainGo_cons_miss cid sm verified e rest s h]
      rfl

theorem drainGo_emitted (cid : Cid) (sm : SignedMessage) (verified : Bool) :
    ∀ (l : List (String × UnsignedMessage)) (s : DisplayState)
      (m : MessageData), m ∈ (drainGo cid sm verified l s).state.emitted →
      m ∈ s.emitted ∨
        (verified = true ∧ m.address = sm.address ∧ m.name = sm.data.name) := by
  intro l
  induction l with
  | nil => intro s m hm; left; exact hm
  | cons e rest ih =>
    intro s m hm
    by_cases h : e.2.origin.link = cid
    · rw [drainGo_cons_match cid sm verified e rest s h] at hm
      by_cases hp : e.1 = sm.data.peer_id ∧ verified = true
      · rw [if_pos hp] at hm
        rcases ih _ m hm with h1 | h1
        · rw [pushChat_emitted] at h1
          rcases List.mem_append.mp h1 with h2 | h2
          · left; exact h2
          · right
            rw [List.mem_singleton] at h2
            subst h2
            exact ⟨hp.2, rfl, rfl⟩
        · right; exact h1
      · rw [if_neg hp] at hm
        exact ih s m hm
    · rw [drainGo_cons_miss cid sm verified e rest s h] at hm
      left
      exact hm

/-- Result of `on_pubsub_update` on a cache hit with matching peer id. -/
theorem on_pubsub_hit_match (s : DisplayState) (sender : String)
    (msg : UnsignedMessage) (a : List Nat) (ct : Content)
    (hl : lookupId s.trusted_identities msg.origin.link = some (a, ct))
    (hp : ct.peer_id = sender) :
    on_pubsub_update s sender msg = pushChat s a ct.name msg.message := by
  simp [on_pubsub_update, is_allowed, hl, hp]

/-- Result of `on_pubsub_update` on a cache hit with mismatched peer id. -/
theorem on_pubsub_hit_mismatch (s : DisplayState) (sender : String)
    (msg : UnsignedMessage) (a : List Nat) (ct : Content)
    (hl : lookupId s.trusted_identities msg.origin.link = some (a, ct))
    (hp : ct.peer_id ≠ sender) :
    on_pubsub_update s sender msg = s := by
  simp [on_pubsub_update, is_allowed, hl, hp]

/-- Result of `on_pubsub_update` on a cache miss. -/
theorem on_pubsub_miss (s : DisplayState) (sender : String)
    (msg : UnsignedMessage)
    (hl : lookupId s.trusted_identities msg.origin.link = none) :
    on_pubsub_update s sender msg =
      { s with msg_buffer := s.msg_buffer ++ [(sender, msg)]
               fetches := s.fetches ++ [msg.origin.link] } := by
  simp [on_pubsub_update, is_allowed, hl]

/-- Result of `on_signed_msg` when the drain loop hangs. -/
theorem on_signed_msg_hung (s s1 : DisplayState) (cid : Cid)
    (sm : SignedMessage)
    (hd : drainGo cid sm sm.verify s.msg_buffer.reverse s = .hung s1) :
    on_signed_msg s cid (some sm) = .hung s1 := by
  simp [on_signed_msg, hd]

/-- Result of `on_signed_msg` when the drain loop terminates and the
message verified: the identity is cached. -/
theorem on_signed_msg_ok_verified (s s1 : DisplayState) (cid : Cid)
    (sm : SignedMessage)
    (hd : drainGo cid sm sm.verify s.msg_buffer.reverse s = .ok s1)
    (hv : sm.verify = true) :
    on_signed_msg s cid (some sm) =
      .ok { s1 with trusted_identities :=
              insertId s1.trusted_identities cid (sm.address, sm.data) } := by
  have hd2 : drainGo cid sm true s.msg_buffer.reverse s = .ok s1 := hv ▸ hd
  simp [on_signed_msg, hv, hd2]

/-- Result of `on_signed_msg` when the drain loop terminates and the
message did not verify: the cache is untouched. -/
theorem on_signed_msg_ok_unverified (s s1 : DisplayState) (cid : Cid)
    (sm : SignedMessage)
    (hd : drainGo cid sm sm.verify s.msg_buffer.reverse s = .ok s1)
    (hv : sm.verify = false) :
    on_signed_msg s cid (some sm) = .ok s1 := by
  have hd2 : drainGo cid sm false s.msg_buffer.reverse s = .ok s1 := hv ▸ hd
  simp [on_signed_msg, hv, hd2]

theorem verifierStep_derived (E : List VEvent) (s : DisplayState) (e : VEvent)
    (hc : cacheDerived E s) (he : emitDerived E s) (hmem : e ∈ E) :
    cacheDerived E (verifierStep s e).state ∧
      emitDerived E (verifierStep s e).state := by
  cases e with
  | pubsubErr => exact ⟨hc, he⟩
  | identityErr c => exact ⟨hc, he⟩
  | pubsub sender msg =>
    show cacheDerived E (on_pubsub_update s sender msg) ∧
      emitDerived E (on_pubsub_update s sender msg)
    cases hl : lookupId s.trusted_identities msg.origin.link with
    | none =>
      rw [on_pubsub_miss s sender msg hl]
      exact ⟨hc, he⟩
    | some v =>
      obtain ⟨a, ct⟩ := v
      by_cases hp : ct.peer_id = sender
      · rw [on_pubsub_hit_match s sender msg a ct hl hp]
        refine ⟨hc, ?_⟩
        intro m hm
        rw [pushChat_emitted] at hm
        rcases List.mem_append.mp hm with h1 | h1
        · exact he m h1
        · rw [List.mem_singleton] at h1
          subst h1
          obtain ⟨sm, hsm, hver, haddr, hdata⟩ := hc _ _ _ (lookupId_mem _ _ _ hl)
          exact ⟨msg.origin.link, sm, hsm, hver, haddr, by rw [hdata]⟩
      · rw [on_pubsub_hit_mismatch s sender msg a ct hl hp]
        exact ⟨hc, he⟩
  | identity cid sm =>
    show cacheDerived E (on_signed_msg s cid (some sm)).state ∧
      emitDerived E (on_signed_msg s cid (some sm)).state
    have ht := drainGo_trusted cid sm sm.verify s.msg_buffer.reverse s
    have hem := drainGo_emitted cid sm sm.verify s.msg_buffer.reverse s
    cases hd : drainGo cid sm sm.verify s.msg_buffer.reverse s with
    | hung s1 =>
      rw [on_signed_msg_hung s s1 cid sm hd]
      rw [hd] at ht hem
      constructor
      · intro c a ct hmem2
        exact hc c a ct (ht ▸ hmem2)
      · intro m hm
        rcases hem m hm with h1 | h1
        · exact he m h1
        · exact ⟨cid, sm, hmem, h1.1, h1.2.1.symm, h1.2.2.symm⟩
    | ok s1 =>
      rw [hd] at ht hem
      cases hv : sm.verify with
      | true =>
        rw [on_signed_msg_ok_verified s s1 cid sm hd hv]
        constructor
        · intro c a ct hmem2
          rcases mem_insertId _ _ _ _ hmem2 with h1 | h1
          · exact hc c a ct (ht ▸ h1)
          · simp only [Prod.mk.injEq] at h1
            obtain ⟨h2, h4, h5⟩ := h1
            refine ⟨sm, ?_, hv, h4.symm, h5.symm⟩
            rw [h2]
            exact hmem
        · intro m hm
          rcases hem m hm with h1 | h1
          · exact he m h1
          · exact ⟨cid, sm, hmem, h1.1, h1.2.1.symm, h1.2.2.symm⟩
      | false =>
        rw [on_signed_msg_ok_unverified s s1 cid sm hd hv]
        constructor
        · intro c a ct hmem2
          exact hc c a ct (ht ▸ hmem2)
        · intro m hm
          rcases hem m hm with h1 | h1
          · exact he m h1
          · rw [hv] at h1
            exact absurd h1.1 (by simp)

theorem verifierRun_derived (E : List VEvent) :
    ∀ (evs : List VEvent) (s : DisplayState), (∀ e ∈ evs, e ∈ E) →
      cacheDerived E s → emitDerived E s →
      cacheDerived E (verifierRun s evs).state ∧
        emitDerived E (verifierRun s evs).state := by
  intro evs
  induction evs with
  | nil => intro s _ hc he; exact ⟨hc, he⟩
  | cons e rest ih =>
    intro s hsub hc he
    have hstep := verifierStep_derived E s e hc he (hsub e (by simp))
    cases hs : verifierStep s e with
    | ok s1 =>
      rw [hs] at hstep
      simp only [verifierRun, hs]
      exact ih s1 (fun x hx => hsub x (List.mem_cons_of_mem _ hx)) hstep.1 hstep.2
    | hung s1 =>
      rw [hs] at hstep
      simp only [verifierRun, hs]
      exact hstep

/-! ## C2 -/

/-- Claim C2: for every run of the Verifier from its initial state
(whether it completes or hangs), every display record ever pushed to the
display queue is backed by an `identity` event whose `SignedMessage`
VERIFIED (and whose address and name the record displays) — on the
pending-message path the emission is guarded by `verified`, and on the
cache-hit path the cache only ever holds verified identities.  Hence no
display message is ever emitted for a `SignedMessage` whose `verify()`
returned false. -/
theorem no_display_for_unverified (evs : List VEvent) (m : MessageData)
    (hm : m ∈ (verifierRun DisplayState.init evs).state.emitted) :
    ∃ c sm, VEvent.identity c sm ∈ evs ∧ sm.verify = true ∧
      sm.address = m.address ∧ sm.data.name = m.name := by
  have h := verifierRun_derived evs evs DisplayState.init (fun e he => he)
    (by intro c a ct hx; simp [DisplayState.init] at hx)
    (by intro x hx; simp [DisplayState.init] at hx)
  exact h.2 m hm

/-- Message "one" with origin CID 3. -/
def mOne : UnsignedMessage := { message := "one", origin := ⟨3⟩ }

/-- Message "two" with origin CID 3. -/
def mTwo : UnsignedMessage := { message := "two", origin := ⟨3⟩ }

/-- A verified identity whose peer id is "P". -/
def smP : SignedMessage :=
  { address := [1], data := { peer_id := "P", name := "bob" }, sig_ok := true }

/-- Trace: one message from "P", then its verified identity arrives. -/
def t2 : List VEvent := [.pubsub "P" mOne, .identity 3 smP]

/-- The record emitted on that trace. -/
def md0 : MessageData := { id := 0, address := [1], name := "bob", message := "one" }

/-- Witness for `no_display_for_unverified` on the concrete trace `t2`. -/
theorem no_display_for_unverified_witness :
    md0 ∈ (verifierRun DisplayState.init t2).state.emitted ∧
    ∃ c sm, VEvent.identity c sm ∈ t2 ∧ sm.verify = true ∧
      sm.address = md0.address ∧ sm.data.name = md0.name :=
  ⟨by decide, no_display_for_unverified t2 md0 (by decide)⟩

/-! ## C3 -/

/-- A verified identity whose peer id "Q" matches no transport sender. -/
def smQ : SignedMessage :=
  { address := [9, 9], data := { peer_id := "Q", name := "carol" }, sig_ok := true }

/-- Trace: a message from sender "P" (origin 3) is parked, then the
identity for CID 3 arrives verifying but with peer id "Q". -/
def t3 : List VEvent := [.pubsub "P" mOne, .identity 3 smQ]

/-- Claim C3 is false: on trace `t3` the only transport sender ever seen
for origin 3 is "P", which differs from the signed peer id "Q" — no
parked message's sender matched, and indeed nothing was emitted — yet
`on_signed_msg` inserts the identity into `trusted_identities` anyway,
because the insert at the end of the function is guarded by `verified`
alone. -/
theorem cache_insert_without_peer_match :
    (verifierRun DisplayState.init t3).state.trusted_identities =
      [(3, ([9, 9], smQ.data))] ∧
    (verifierRun DisplayState.init t3).state.emitted = [] ∧
    smQ.data.peer_id = "Q" ∧ ("Q" : String) ≠ "P" := by
  refine ⟨by decide, by decide, rfl, by decide⟩

/-- Claim C3 as amended: an entry for an origin CID is inserted into
`trusted_identities` only when an identity record arrived at that CID
whose `verify()` returned true and whose address and display data the
entry carries; NO peer-id match with any parked sender is required. -/
theorem cache_entries_need_only_verify (evs : List VEvent) (c : Cid)
    (a : List Nat) (ct : Content)
    (h : (c, (a, ct)) ∈ (verifierRun DisplayState.init evs).state.trusted_identities) :
    ∃ sm, VEvent.identity c sm ∈ evs ∧ sm.verify = true ∧
      sm.address = a ∧ sm.data = ct := by
  have hrun := verifierRun_derived evs evs DisplayState.init (fun e he => he)
    (by intro c a ct hx; simp [DisplayState.init] at hx)
    (by intro x hx; simp [DisplayState.init] at hx)
  exact hrun.1 c a ct h

/-- Witness for `cache_entries_need_only_verify` on the concrete trace
`t3`. -/
theorem cache_entries_need_only_verify_witness :
    (3, ([9, 9], smQ.data)) ∈ (verifierRun DisplayState.init t3).state.trusted_identities ∧
    ∃ sm, VEvent.identity 3 sm ∈ t3 ∧ sm.verify = true ∧
      sm.address = [9, 9] ∧ sm.data = smQ.data :=
  ⟨by decide, cache_entries_need_only_verify t3 3 [9, 9] smQ.data (by decide)⟩

/-! ## C5 -/

/-- The display records produced by draining the given (already
reversed) parked entries for a verified identity `sm`, with ids starting
at `i`. -/
def emitsFor (sm : SignedMessage) : Nat → List (String × UnsignedMessage) → List MessageData
  | _, [] => []
  | i, e :: rest => ⟨i, sm.address, sm.data.name, e.2.message⟩ :: emitsFor sm (i + 1) rest

/-- When every entry handed to `drainGo` matches the identity's origin
and peer id and the message verified, the loop terminates, emits one
record per entry in the order given (which is reverse parked-insertion
order), and empties the parking lot. -/
theorem drainGo_all_ok (cid : Cid) (sm : SignedMessage) :
    ∀ (l : List (String × UnsignedMessage)) (s : DisplayState),
      (∀ e ∈ l, e.2.origin.link = cid) → (∀ e ∈ l, e.1 = sm.data.peer_id) →
      ∃ s1, drainGo cid sm true l s = .ok s1 ∧ s1.msg_buffer = [] ∧
        s1.emitted = s.emitted ++ emitsFor sm s.next_id l ∧
        s1.next_id = s.next_id + l.length ∧
        s1.trusted_identities = s.trusted_identities := by
  intro l
  induction l with
  | nil =>
    intro s _ _
    exact ⟨{ s with msg_buffer := [] }, rfl, rfl, by simp [emitsFor], rfl, rfl⟩
  | cons e rest ih =>
    intro s h1 h2
    have he1 : e.2.origin.link = cid := h1 e (by simp)
    have he2 : e.1 = sm.data.peer_id := h2 e (by simp)
    rw [drainGo_cons_match cid sm true e rest s he1,
      if_pos (by exact ⟨he2, rfl⟩)]
    obtain ⟨s1, hs1, hb, hem, hn, ht⟩ :=
      ih (pushChat s sm.address sm.data.name e.2.message)
        (fun x hx => h1 x (List.mem_cons_of_mem _ hx))
        (fun x hx => h2 x (List.mem_cons_of_mem _ hx))
    refine ⟨s1, hs1, hb, ?_, ?_, ht⟩
    · rw [hem, pushChat_emitted, pushChat_next_id]
      simp [emitsFor]
    · rw [hn, pushChat_next_id]
      simp [List.length_cons]
      omega

/-- Claim C5 as amended: when a verified identity arrives for origin
CID `cid` and every parked entry has that origin and a matching sender,
`on_signed_msg` terminates, empties the parking lot, and produces one
emission per parked entry in REVERSE parked-insertion order (the
source iterates the parking lot from its tail, swap-removing as it
goes). -/
theorem parked_drain_reverse_order (s : DisplayState) (cid : Cid)
    (sm : SignedMessage)
    (h1 : ∀ e ∈ s.msg_buffer, e.2.origin.link = cid)
    (h2 : ∀ e ∈ s.msg_buffer, e.1 = sm.data.peer_id)
    (hv : sm.verify = true) :
    ∃ s1, on_signed_msg s cid (some sm) = .ok s1 ∧ s1.msg_buffer = [] ∧
      s1.emitted = s.emitted ++ emitsFor sm s.next_id s.msg_buffer.reverse := by
  obtain ⟨s1, hs1, hb, hem, hn, ht⟩ := drainGo_all_ok cid sm s.msg_buffer.reverse s
    (fun e he => h1 e (List.mem_reverse.mp he))
    (fun e he => h2 e (List.mem_reverse.mp he))
  have hd : drainGo cid sm sm.verify s.msg_buffer.reverse s = .ok s1 := by
    rw [hv]; exact hs1
  refine ⟨{ s1 with trusted_identities := insertId s1.trusted_identities cid (sm.address, sm.data) }, ?_, hb, hem⟩
  exact on_signed_msg_ok_verified s s1 cid sm hd hv

/-- Trace: two messages from "P" with origin 3 are parked, then the
verified identity (peer id "P") for CID 3 arrives. -/
def t5 : List VEvent := [.pubsub "P" mOne, .pubsub "P" mTwo, .identity 3 smP]

/-- Claim C5 is false as stated: after trace `t5` the two parked
messages are emitted in REVERSE arrival order — "two" (parked second)
first, then "one" — not in parked-insertion order; the parking lot does
end up empty. -/
theorem emissions_in_reverse_arrival_order :
    (verifierRun DisplayState.init t5).state.emitted =
      [{ id := 0, address := [1], name := "bob", message := "two" },
       { id := 1, address := [1], name := "bob", message := "one" }] ∧
    (verifierRun DisplayState.init t5).state.msg_buffer = [] := by
  refine ⟨by decide, by decide⟩

/-- State with the two messages of trace `t5` already parked. -/
def s5 : DisplayState :=
  { DisplayState.init with msg_buffer := [("P", mOne), ("P", mTwo)] }

/-- Witness for `parked_drain_reverse_order` at the concrete state
`s5`. -/
theorem parked_drain_reverse_order_witness :
    (∀ e ∈ s5.msg_buffer, e.2.origin.link = 3) ∧
    ∃ s1, on_signed_msg s5 3 (some smP) = .ok s1 ∧ s1.msg_buffer = [] ∧
      s1.emitted = s5.emitted ++ emitsFor smP s5.next_id s5.msg_buffer.reverse :=
  ⟨by decide, parked_drain_reverse_order s5 3 smP (by decide) (by decide) rfl⟩

/-! ## Bridge between the literal `signedLoop` and `drainGo` -/

/-- If the entry examined at index `i - 1` has a foreign origin, the
literal loop makes no progress: it never terminates, whatever the fuel. -/
theorem signedLoop_stuck (cid : Cid) (sm : SignedMessage) (verified : Bool)
    (buf : List (String × UnsignedMessage)) (i : Nat) (s : DisplayState)
    (hi : i ≠ 0) (hm : (buf.getD (i - 1) ("", default)).2.origin.link ≠ cid) :
    ∀ fuel, signedLoop cid sm verified fuel buf i s = none := by
  intro fuel
  induction fuel with
  | zero => rfl
  | succ f ih =>
    simp only [signedLoop, if_neg hi, if_pos hm]
    exact ih

/-- Unfolding equation of the literal loop when the examined entry's
origin matches: emit when appropriate, swap-remove, decrement. -/
theorem signedLoop_succ_match (cid : Cid) (sm : SignedMessage)
    (verified : Bool) (f : Nat) (buf : List (String × UnsignedMessage))
    (i : Nat) (s : DisplayState) (hi : i ≠ 0)
    (h : (buf.getD (i - 1) ("", default)).2.origin.link = cid) :
    signedLoop cid sm verified (f + 1) buf i s =
      signedLoop cid sm verified f (swapRemove buf (i - 1)) (i - 1)
        (if (buf.getD (i - 1) ("", default)).1 = sm.data.peer_id ∧ verified then
          pushChat s sm.address sm.data.name (buf.getD (i - 1) ("", default)).2.message
        else s) := by
  simp only [signedLoop, if_neg hi, if_neg (not_not_intro h)]

/-- `List.getD` at the last position of `l ++ [a]` is `a`. -/
theorem getD_append_last (l : List (String × UnsignedMessage))
    (a d : String × UnsignedMessage) : (l ++ [a]).getD l.length d = a := by
  induction l with
  | nil => rfl
  | cons x rest ih => simp [List.getD]

/-- `swap_remove` at the last position just pops. -/
theorem swapRemove_last (l : List (String × UnsignedMessage))
    (a : String × UnsignedMessage) : swapRemove (l ++ [a]) l.length = l := by
  unfold swapRemove
  rw [List.getLast?_concat, List.dropLast_concat]
  exact List.set_eq_of_length_le (le_refl _)

/-- The literal indexed loop agrees with the structured `drainGo`: run
with `i = buf.length` (as at the `on_signed_msg` call site), either
`drainGo` on the reversed buffer terminates with `.ok s1` and the
literal loop reaches `i = 0` in the same state (its untouched
`msg_buffer` field aside) within `buf.length + 1` iterations, or
`drainGo` hangs and the literal loop exhausts EVERY fuel. -/
theorem signedLoop_agrees_drainGo (cid : Cid) (sm : SignedMessage)
    (verified : Bool) :
    ∀ (buf : List (String × UnsignedMessage)) (s : DisplayState),
      (∃ s1, drainGo cid sm verified buf.reverse s = .ok s1 ∧
        signedLoop cid sm verified (buf.length + 1) buf buf.length s =
          some ([], { s1 with msg_buffer := s.msg_buffer })) ∨
      (∃ s1, drainGo cid sm verified buf.reverse s = .hung s1 ∧
        ∀ fuel, signedLoop cid sm verified fuel buf buf.length s = none) := by
  intro buf
  induction buf using List.reverseRecOn with
  | nil =>
    intro s
    left
    exact ⟨{ s with msg_buffer := [] }, rfl, rfl⟩
  | append_singleton l a ih =>
    intro s
    rw [List.reverse_append, List.reverse_singleton, List.singleton_append]
    have hlen : (l ++ [a]).length = l.length + 1 := by simp
    have hsub : (l ++ [a]).length - 1 = l.length := by simp
    have hgd : (l ++ [a]).getD ((l ++ [a]).length - 1) ("", default) = a := by
      rw [hsub]
      exact getD_append_last l a ("", default)
    by_cases h : a.2.origin.link = cid
    · rw [drainGo_cons_match cid sm verified a l.reverse s h]
      set s2 := if a.1 = sm.data.peer_id ∧ verified then
          pushChat s sm.address sm.data.name a.2.message
        else s with hs2
      have hbuf2 : s2.msg_buffer = s.msg_buffer := by
        rw [hs2]
        split_ifs
        · exact pushChat_buffer s sm.address sm.data.name a.2.message
        · rfl
      have hunf : signedLoop cid sm verified ((l ++ [a]).length + 1)
          (l ++ [a]) (l ++ [a]).length s =
          signedLoop cid sm verified (l.length + 1) l l.length s2 := by
        rw [show (l ++ [a]).length + 1 = ((l ++ [a]).length) + 1 from rfl,
          signedLoop_succ_match cid sm verified ((l ++ [a]).length)
            (l ++ [a]) ((l ++ [a]).length) s (by simp) (by rw [hgd]; exact h)]
        rw [hgd, hsub, swapRemove_last, hlen, ← hs2]
      rcases ih s2 with ⟨s1, hok, hloop⟩ | ⟨s1, hhung, hloop⟩
      · left
        refine ⟨s1, hok, ?_⟩
        rw [hunf, hloop, hbuf2]
      · right
        refine ⟨s1, hhung, ?_⟩
        intro fuel
        cases fuel with
        | zero => rfl
        | succ f =>
          rw [signedLoop_succ_match cid sm verified f (l ++ [a])
            ((l ++ [a]).length) s (by simp) (by rw [hgd]; exact h)]
          rw [hgd, hsub, swapRemove_last, ← hs2]
          exact hloop f
    · right
      refine ⟨{ s with msg_buffer := (a :: l.reverse).reverse }, ?_, ?_⟩
      · rw [drainGo_cons_miss cid sm verified a l.reverse s h]
      · refine signedLoop_stuck cid sm verified (l ++ [a]) (l ++ [a]).length s (by simp) ?_
        rw [hgd]
        exact h

end LiveLike
